import Mathlib

/-!
# Verification of the Earth-Viz cloud-imagery compositing pipeline

Shallow embedding of `src/backend/cloud_generator.py` (functions
`interpolate`/the vectorized IR remap, `screen`, `multiply`, `gamma`,
the antimeridian gap-fill scan inside `process_images`, the hemisphere
half-swap, `create_terminator_mask`, `create_day_night_blend`'s tier
selection and `save_image_resolutions`) and of
`src/earth_viz_backend/.../services/cloud_scheduler.py`'s file writes.

Pixel values are modelled as naturals; the float arithmetic of the
Python code is modelled exactly over `ℚ` where the code computes with
ratios of machine-representable quantities, and over `ℝ` where the code
uses transcendental functions (`pow`, `sin`, `cos`).
-/

namespace EarthViz

/-- Working raster width (`SOURCE_WIDTH = 8192` in `cloud_generator.py`). -/
def SOURCE_WIDTH : ℕ := 8192

/-- Working raster height (`SOURCE_HEIGHT = SOURCE_WIDTH // 2`). -/
def SOURCE_HEIGHT : ℕ := SOURCE_WIDTH / 2

/-! ## ChannelBlender: IR remap and the blend-mode primitives -/

/-- The vectorized IR remap of `process_images`:
`np.where(ir_raw < 72, 0, np.where(ir_raw > 178, 255, (ir_raw - 72) / (178 - 72) * 255))`. -/
def ir_remap (v : ℚ) : ℚ :=
  if v < 72 then 0
  else if v > 178 then 255
  else (v - 72) / (178 - 72) * 255

/-- `screen(a, b) = (1 - (1 - a/255) * (1 - b/255)) * 255`. -/
def screen (a b : ℚ) : ℚ := (1 - (1 - a / 255) * (1 - b / 255)) * 255

/-- `multiply(a, b) = (a/255) * (b/255) * 255`. -/
def multiply (a b : ℚ) : ℚ := (a / 255) * (b / 255) * 255

/-- `gamma(gamma_val, input_val) = 255 * pow(input_val / 255, 1 / gamma_val)`;
Python's real-valued `pow` is modelled by `Real.rpow`. -/
noncomputable def gammaOp (g v : ℝ) : ℝ := 255 * (v / 255) ^ (1 / g)

/-! ## SolarTerminatorModel: the per-pixel day/night mask -/

/-- `sin(radians(6))`, the civil-twilight half-width used by
`create_terminator_mask`. -/
noncomputable def twilightSin : ℝ := Real.sin (6 * Real.pi / 180)

/-- The solar-zenith cosine of `create_terminator_mask` (all angles in
radians, after the code's `np.radians` conversion):
`sin(lat)*sin(solar_lat) + cos(lat)*cos(solar_lat)*cos(lon - solar_lon)`. -/
noncomputable def cosZenith (lat lon slat slon : ℝ) : ℝ :=
  Real.sin lat * Real.sin slat +
    Real.cos lat * Real.cos slat * Real.cos (lon - slon)

/-- The per-pixel day/night mask of `create_terminator_mask`:
`np.clip((cos_zenith + sin(twilight)) / (2 * sin(twilight)), 0, 1)`. -/
noncomputable def dayMask (lat lon slat slon : ℝ) : ℝ :=
  min 1 (max 0 ((cosZenith lat lon slat slon + twilightSin) / (2 * twilightSin)))

/-! ## HemisphereReassembler: the left/right half swap -/

/-- The half-swap of `process_images`: crop `[0, W/2)` and `[W/2, W)`
and paste them exchanged, so the output at column `x` reads the input at
column `x + W/2` (when `x < W/2`) or `x - W/2` (otherwise). -/
def swapHalves {α : Type} (f : ℕ → ℕ → α) (y x : ℕ) : α :=
  if x < SOURCE_WIDTH / 2 then f y (x + SOURCE_WIDTH / 2)
  else f y (x - SOURCE_WIDTH / 2)

/-! ## SeamGapFiller: the per-row antimeridian gap-fill scan -/

/-- `GAP_BUFFER = 3` in `process_images`. -/
def GAP_BUFFER : ℕ := 3

/-- The mutable per-row scan state of the gap-fill loop:
`gap_start_x` (an `int`, may be negative), `gap_start_val`, and
`after_gap_counter`.  (`gap_end_x`/`gap_end_val` are only ever assigned
and consumed inside a single loop iteration, so they are locals of the
acceptance branch, not carried state.) -/
structure GapState where
  gapStart : Option ℤ
  gapStartVal : ℕ
  counter : ℕ
deriving DecidableEq

/-- The scan state at the start of each row: no gap open, counter 0. -/
def initGapState : GapState := ⟨none, 0, 0⟩

/-- `np.linspace(a, b, n)` at index `j`: `a + j·(b−a)/(n−1)`
(`numpy` returns `[a]` when `n = 1`). -/
def linspaceVal (a b : ℚ) (n j : ℕ) : ℚ :=
  if n ≤ 1 then a else a + j * (b - a) / ((n : ℚ) - 1)

/-- `np.clip(q, 0, 255)`. -/
def clip255 (q : ℚ) : ℚ := min 255 (max 0 q)

/-- One entry of `np.clip(np.linspace(a, b, n), 0, 255).astype(np.uint8)`:
the clip keeps the value in `[0, 255]`, and the `uint8` cast truncates
(floor, since the value is non-negative). -/
def fillVal (a b : ℕ) (n j : ℕ) : ℕ :=
  Nat.floor (clip255 (linspaceVal (a : ℚ) (b : ℚ) n j))

/-- The first `len` entries of the clipped `linspace` vector
(`gap_values[:actual_width]`). -/
def fillSeg (a b : ℕ) (n len : ℕ) : List ℕ :=
  (List.range len).map (fillVal a b n)

/-- `row[si : si + vals.length] = vals`, the slice assignment used by the
gap fill (per channel). -/
def writeRange (row : List ℕ) (si : ℕ) (vals : List ℕ) : List ℕ :=
  row.take si ++ vals ++ row.drop (si + vals.length)

/-- One iteration of the per-row gap-fill loop of `process_images` at
column `x`, acting on the (single-channel) row and the scan state.
Mirrors the Python `if/elif/elif` chain:
* first sentinel pixel (`== 255`) with no gap open starts a gap at
  `x − GAP_BUFFER` and samples `gap_start_val` at `x − GAP_BUFFER`
  (clamped to column 0);
* a non-sentinel pixel (`< 255`) with a gap open and counter below
  `GAP_BUFFER` increments the counter;
* a non-sentinel pixel with a gap open and counter `== GAP_BUFFER`
  accepts `gap_end = x`, `gap_end_val = value`, interpolates the gap
  (guarded by `gap_end > gap_start`, `gap_start ≥ 0`, `gap_end < W`),
  and resets the state;
* anything else (in particular a sentinel pixel while a gap is open)
  leaves row and state untouched. -/
def gapStep (W : ℕ) (acc : List ℕ × GapState) (x : ℕ) : List ℕ × GapState :=
  let row := acc.1
  let st := acc.2
  let v := row.getD x 0
  if v = 255 ∧ st.gapStart = none then
    let gsv := if GAP_BUFFER ≤ x then row.getD (x - GAP_BUFFER) 0 else row.getD 0 0
    (row, ⟨some ((x : ℤ) - GAP_BUFFER), gsv, st.counter⟩)
  else if st.gapStart ≠ none ∧ v < 255 ∧ st.counter < GAP_BUFFER then
    (row, ⟨st.gapStart, st.gapStartVal, st.counter + 1⟩)
  else if v < 255 ∧ st.gapStart ≠ none ∧ st.counter = GAP_BUFFER then
    match st.gapStart with
    | none => (row, initGapState)
    | some gs =>
      let newRow :=
        if gs < (x : ℤ) ∧ 0 ≤ gs ∧ x < W then
          let gapWidth := ((x : ℤ) - gs + 1).toNat
          if 0 < gapWidth then
            let si := (max 0 gs).toNat
            let ei := min W (x + 1)
            let aw := ei - si
            if 0 < aw then writeRange row si (fillSeg st.gapStartVal v gapWidth aw)
            else row
          else row
        else row
      (newRow, initGapState)
  else acc

/-- The whole per-row scan: fold `gapStep` over columns `0, …, W−1`
starting from a fresh state, and keep the resulting row. -/
def processRow (W : ℕ) (row : List ℕ) : List ℕ :=
  ((List.range W).foldl (gapStep W) (row, initGapState)).1

/-- The gap-fill pass over the raster: rows `y` with
`H/8 ≤ y < H − H/8` are scanned (`for y in range(SOURCE_HEIGHT // 8,
SOURCE_HEIGHT - SOURCE_HEIGHT // 8)`), all other rows are untouched. -/
def gapFillPass (H W : ℕ) (img : List (List ℕ)) : List (List ℕ) :=
  img.mapIdx fun y row =>
    if H / 8 ≤ y ∧ y < H - H / 8 then processRow W row else row

/-! ## SolarTerminatorModel: blend-input tier selection -/

/-- Output tier width at scale index `i` (`SOURCE_WIDTH // 2**i`). -/
def tierWidth (i : ℕ) : ℕ := SOURCE_WIDTH / 2 ^ i

/-- Output tier height at scale index `i` (`SOURCE_HEIGHT // 2**i`). -/
def tierHeight (i : ℕ) : ℕ := SOURCE_HEIGHT / 2 ^ i

/-- The tier search of `create_day_night_blend`: `for i in range(1, 4)`
take the first scale index whose day and night files both exist
(`present i` abstracts `os.path.exists(day_path) and
os.path.exists(night_path)` at tier `i`); tier 0 (8192×4096) is
deliberately skipped by the loop's start index. -/
def findBlendTier (present : ℕ → Bool) : Option ℕ :=
  if present 1 then some 1
  else if present 2 then some 2
  else if present 3 then some 3
  else none

/-! ## ResolutionPyramidWriter and CloudScheduler: file-write traces -/

/-- How a single output file is produced: written directly at its final
path, or written to a temporary file which is then moved into place. -/
inductive SaveOp where
  | directWrite (path : String)
  | tempWriteMove (path : String)
deriving DecidableEq

/-- Output path `OUTPUT_DIR/<width>x<height>/<filename>.<ext>`. -/
def outPath (width height : ℕ) (filename ext : String) : String :=
  "./out/images/" ++ toString width ++ "x" ++ toString height ++ "/" ++
    filename ++ "." ++ ext

/-- The file writes performed by `save_image_resolutions`: for each
format and each of the 4 scales it calls `resized_image.save(output_path,
…)` — a direct write to the final path, with no temporary file. -/
def save_image_resolutions_ops (filename : String) (formats : List String) :
    List SaveOp :=
  formats.flatMap fun ext =>
    (List.range 4).map fun i =>
      SaveOp.directWrite (outPath (tierWidth i) (tierHeight i) filename ext)

/-- The file writes performed by `CloudScheduler.generate_clouds`
(`cloud_scheduler.py`): each downloaded image goes to a
`tempfile.NamedTemporaryFile` and is then `shutil.move`d onto its final
name. -/
def generate_clouds_ops : List SaveOp :=
  [SaveOp.tempWriteMove "earth-clouds.jpg",
    SaveOp.tempWriteMove "earth-clouds-night.jpg"]

end EarthViz

namespace EarthViz

/-! ## Helper lemmas about the gap-fill scan step -/

lemma gapStep_idle (W x : ℕ) (row : List ℕ) (st : GapState)
    (hst : st.gapStart = none) (hv : row.getD x 0 < 255) :
    gapStep W (row, st) x = (row, st) := by
  have hne : row.getD x 0 ≠ 255 := Nat.ne_of_lt hv
  unfold gapStep
  dsimp only
  rw [hst,
    if_neg (fun h => hne h.1),
    if_neg (fun h => h.1 rfl),
    if_neg (fun h => h.2.1 rfl)]

lemma gapStep_start (W x : ℕ) (row : List ℕ) (st : GapState)
    (hst : st.gapStart = none) (hv : row.getD x 0 = 255) :
    gapStep W (row, st) x =
      (row, ⟨some ((x : ℤ) - GAP_BUFFER),
        if GAP_BUFFER ≤ x then row.getD (x - GAP_BUFFER) 0 else row.getD 0 0,
        st.counter⟩) := by
  unfold gapStep
  dsimp only
  rw [hst, if_pos ⟨hv, rfl⟩]

lemma gapStep_inGap_sentinel (W x : ℕ) (row : List ℕ) (st : GapState) (g : ℤ)
    (hg : st.gapStart = some g) (hv : row.getD x 0 = 255) :
    gapStep W (row, st) x = (row, st) := by
  unfold gapStep
  dsimp only
  rw [hg,
    if_neg (fun h => Option.noConfusion h.2),
    if_neg (fun h => absurd h.2.1 (by rw [hv]; exact lt_irrefl 255)),
    if_neg (fun h => absurd h.1 (by rw [hv]; exact lt_irrefl 255))]

lemma gapStep_inGap_count (W x : ℕ) (row : List ℕ) (st : GapState) (g : ℤ)
    (hg : st.gapStart = some g) (hv : row.getD x 0 < 255)
    (hc : st.counter < GAP_BUFFER) :
    gapStep W (row, st) x =
      (row, ⟨st.gapStart, st.gapStartVal, st.counter + 1⟩) := by
  have hne : row.getD x 0 ≠ 255 := Nat.ne_of_lt hv
  unfold gapStep
  dsimp only
  rw [hg,
    if_neg (fun h => hne h.1),
    if_pos ⟨fun h => Option.noConfusion h, hv, hc⟩]

lemma gapStep_accept (W x : ℕ) (row : List ℕ) (st : GapState) (g : ℤ)
    (hg : st.gapStart = some g) (hv : row.getD x 0 < 255)
    (hc : st.counter = GAP_BUFFER)
    (h1 : g < (x : ℤ)) (h2 : 0 ≤ g) (h3 : x < W) :
    gapStep W (row, st) x =
      (writeRange row (max 0 g).toNat
        (fillSeg st.gapStartVal (row.getD x 0) ((x : ℤ) - g + 1).toNat
          (min W (x + 1) - (max 0 g).toNat)),
       initGapState) := by
  have hne : row.getD x 0 ≠ 255 := Nat.ne_of_lt hv
  have hw : 0 < ((x : ℤ) - g + 1).toNat := by omega
  have haw : 0 < min W (x + 1) - (max 0 g).toNat := by
    rw [min_eq_right (by omega : x + 1 ≤ W)]
    omega
  unfold gapStep
  dsimp only
  rw [hg,
    if_neg (fun h => hne h.1),
    if_neg (fun h => absurd h.2.2 (by omega)),
    if_pos ⟨hv, fun h => Option.noConfusion h, hc⟩]
  dsimp only
  rw [if_pos ⟨h1, h2, h3⟩, if_pos hw, if_pos haw]

/-! ## Helper lemmas for fold decomposition -/

lemma foldl_const {α β : Type} (f : α → β → α) (a : α) (l : List β)
    (h : ∀ x ∈ l, f a x = a) : l.foldl f a = a := by
  induction l with
  | nil => rfl
  | cons x xs ih =>
    rw [List.foldl_cons, h x (List.mem_cons_self x xs)]
    exact ih fun y hy => h y (List.mem_cons_of_mem x hy)

lemma range'_split (s m n : ℕ) :
    List.range' s (m + n) = List.range' s m ++ List.range' (s + m) n := by
  have h := List.range'_append s m n 1
  rw [one_mul] at h
  rw [Nat.add_comm m n]
  exact h.symm

lemma scan_skip_dark (W s len : ℕ) (row : List ℕ)
    (h : ∀ x, s ≤ x → x < s + len → row.getD x 0 < 255) :
    (List.range' s len).foldl (gapStep W) (row, initGapState) =
      (row, initGapState) :=
  foldl_const _ _ _ fun x hx => by
    obtain ⟨h1, h2⟩ := List.mem_range'_1.mp hx
    exact gapStep_idle W x row initGapState rfl (h x h1 h2)

lemma scan_skip_sentinel (W s len : ℕ) (row : List ℕ) (st : GapState) (g : ℤ)
    (hg : st.gapStart = some g)
    (h : ∀ x, s ≤ x → x < s + len → row.getD x 0 = 255) :
    (List.range' s len).foldl (gapStep W) (row, st) = (row, st) :=
  foldl_const _ _ _ fun x hx => by
    obtain ⟨h1, h2⟩ := List.mem_range'_1.mp hx
    exact gapStep_inGap_sentinel W x row st g hg (h x h1 h2)

lemma writeRange_getD_right (row vals : List ℕ) (si x d : ℕ)
    (hsi : si ≤ row.length) (hx : si + vals.length ≤ x) :
    (writeRange row si vals).getD x d = row.getD x d := by
  unfold writeRange
  have hlt : (row.take si ++ vals).length = si + vals.length := by
    rw [List.length_append, List.length_take]
    omega
  rw [List.getD_append_right _ _ _ _ (by omega), hlt]
  rw [List.getD_eq_getElem?_getD, List.getElem?_drop, ← List.getD_eq_getElem?_getD]
  congr 1
  omega

/-! ## Helper lemmas about the interpolation values -/

lemma clip255_mono {p q : ℚ} (h : p ≤ q) : clip255 p ≤ clip255 q := by
  unfold clip255
  exact min_le_min le_rfl (max_le_max le_rfl h)

lemma fillVal_le_255 (a b n j : ℕ) : fillVal a b n j ≤ 255 := by
  unfold fillVal
  have h : clip255 (linspaceVal (a : ℚ) (b : ℚ) n j) ≤ ((255 : ℕ) : ℚ) := by
    unfold clip255
    exact_mod_cast min_le_left _ _
  calc Nat.floor (clip255 (linspaceVal (a : ℚ) (b : ℚ) n j)) ≤
        Nat.floor (((255 : ℕ) : ℚ)) := Nat.floor_le_floor h
    _ = 255 := Nat.floor_natCast _

lemma fillVal_le_max (a b n j : ℕ) (hj : j < n) : fillVal a b n j ≤ max a b := by
  unfold fillVal
  have h : clip255 (linspaceVal (a : ℚ) (b : ℚ) n j) ≤ ((max a b : ℕ) : ℚ) := by
    have hq : linspaceVal (a : ℚ) (b : ℚ) n j ≤ ((max a b : ℕ) : ℚ) := by
      unfold linspaceVal
      split
      · exact_mod_cast le_max_left a b
      · rename_i hn
        have hn' : (1 : ℚ) < (n : ℚ) := by exact_mod_cast Nat.not_le.mp hn
        rcases le_total (a : ℚ) (b : ℚ) with hab | hab
        · have hj' : (j : ℚ) ≤ (n : ℚ) - 1 := by
            have : (j : ℚ) + 1 ≤ (n : ℚ) := by exact_mod_cast hj
            linarith
          have hstep : (j : ℚ) * ((b : ℚ) - a) ≤ ((n : ℚ) - 1) * ((b : ℚ) - a) :=
            mul_le_mul_of_nonneg_right hj' (by linarith)
          have hdiv : (j : ℚ) * ((b : ℚ) - a) / ((n : ℚ) - 1) ≤ (b : ℚ) - a := by
            rw [div_le_iff (by linarith)]
            calc (j : ℚ) * ((b : ℚ) - a) ≤ ((n : ℚ) - 1) * ((b : ℚ) - a) := hstep
              _ = ((b : ℚ) - a) * ((n : ℚ) - 1) := by ring
          have hmb : (b : ℚ) ≤ ((max a b : ℕ) : ℚ) := by
            exact_mod_cast le_max_right a b
          linarith
        · have hj0 : (0 : ℚ) ≤ (j : ℚ) := Nat.cast_nonneg j
          have hdiv : (j : ℚ) * ((b : ℚ) - a) / ((n : ℚ) - 1) ≤ 0 := by
            apply div_nonpos_of_nonpos_of_nonneg
            · nlinarith
            · linarith
          have hma : (a : ℚ) ≤ ((max a b : ℕ) : ℚ) := by
            exact_mod_cast le_max_left a b
          linarith
    unfold clip255
    calc min 255 (max 0 (linspaceVal (a : ℚ) (b : ℚ) n j)) ≤
          max 0 (linspaceVal (a : ℚ) (b : ℚ) n j) := min_le_right _ _
      _ ≤ ((max a b : ℕ) : ℚ) := max_le (Nat.cast_nonneg _) hq
  calc Nat.floor (clip255 (linspaceVal (a : ℚ) (b : ℚ) n j)) ≤
        Nat.floor (((max a b : ℕ) : ℚ)) := Nat.floor_le_floor h
    _ = max a b := Nat.floor_natCast _

lemma fillVal_mono (a b n : ℕ) (hab : a ≤ b) {i j : ℕ} (hij : i ≤ j) :
    fillVal a b n i ≤ fillVal a b n j := by
  unfold fillVal
  apply Nat.floor_le_floor
  apply clip255_mono
  unfold linspaceVal
  split
  · exact le_rfl
  · rename_i hn
    have hn' : (1 : ℚ) < (n : ℚ) := by exact_mod_cast Nat.not_le.mp hn
    have hd : (0 : ℚ) ≤ ((b : ℚ) - a) / ((n : ℚ) - 1) := by
      apply div_nonneg
      · have : (a : ℚ) ≤ (b : ℚ) := by exact_mod_cast hab
        linarith
      · linarith
    have hij' : (i : ℚ) ≤ (j : ℚ) := by exact_mod_cast hij
    have hm := mul_le_mul_of_nonneg_right hij' hd
    rw [mul_div_assoc, mul_div_assoc]
    linarith

lemma fillVal_anti (a b n : ℕ) (hab : b ≤ a) {i j : ℕ} (hij : i ≤ j) :
    fillVal a b n j ≤ fillVal a b n i := by
  unfold fillVal
  apply Nat.floor_le_floor
  apply clip255_mono
  unfold linspaceVal
  split
  · exact le_rfl
  · rename_i hn
    have hn' : (1 : ℚ) < (n : ℚ) := by exact_mod_cast Nat.not_le.mp hn
    have hd : ((b : ℚ) - a) / ((n : ℚ) - 1) ≤ 0 := by
      apply div_nonpos_of_nonpos_of_nonneg
      · have : (b : ℚ) ≤ (a : ℚ) := by exact_mod_cast hab
        linarith
      · linarith
    have hij' : (i : ℚ) ≤ (j : ℚ) := by exact_mod_cast hij
    have hm := mul_le_mul_of_nonpos_right hij' hd
    rw [mul_div_assoc, mul_div_assoc]
    linarith

lemma fillVal_const (a n j : ℕ) (ha : a ≤ 255) : fillVal a a n j = a := by
  unfold fillVal linspaceVal
  have hval : (if n ≤ 1 then (a : ℚ)
      else (a : ℚ) + j * ((a : ℚ) - a) / ((n : ℚ) - 1)) = (a : ℚ) := by
    split
    · rfl
    · rw [sub_self, mul_zero, zero_div, add_zero]
  rw [hval]
  unfold clip255
  rw [max_eq_right (Nat.cast_nonneg a),
    min_eq_right (by exact_mod_cast ha : (a : ℚ) ≤ 255), Nat.floor_natCast]

lemma fillSeg_length (a b n len : ℕ) : (fillSeg a b n len).length = len := by
  unfold fillSeg
  rw [List.length_map, List.length_range]

lemma fillSeg_getD (a b n len j : ℕ) (hj : j < len) :
    (fillSeg a b n len).getD j 0 = fillVal a b n j := by
  unfold fillSeg
  have h : j < ((List.range len).map (fillVal a b n)).length := by
    simp [hj]
  rw [List.getD_eq_getElem _ _ h, List.getElem_map, List.getElem_range]

/-! ## Theorems -/

/-- C5: for every solar position, the day/night mask of
`create_terminator_mask` equals 1 at the exact subsolar point and 0 at
its geographic antipode. -/
theorem dayMask_subsolar_antipode (slat slon : ℝ) :
    dayMask slat slon slat slon = 1 ∧
      dayMask (-slat) (slon + Real.pi) slat slon = 0 := by
  have hs0 : 0 < twilightSin := by
    have h6 : 6 * Real.pi / 180 = Real.pi / 30 := by ring
    unfold twilightSin
    rw [h6]
    apply Real.sin_pos_of_pos_of_lt_pi
    · positivity
    · have hpi : (0:ℝ) < Real.pi := Real.pi_pos
      linarith
  have hs1 : twilightSin ≤ 1 := Real.sin_le_one _
  constructor
  · have hcz : cosZenith slat slon slat slon = 1 := by
      unfold cosZenith
      rw [sub_self, Real.cos_zero]
      nlinarith [Real.sin_sq_add_cos_sq slat]
    unfold dayMask
    rw [hcz]
    have hge : (1:ℝ) ≤ (1 + twilightSin) / (2 * twilightSin) := by
      rw [le_div_iff (by linarith)]
      linarith
    rw [max_eq_right (by linarith), min_eq_left hge]
  · have hcz : cosZenith (-slat) (slon + Real.pi) slat slon = -1 := by
      unfold cosZenith
      have h1 : slon + Real.pi - slon = Real.pi := by ring
      rw [h1, Real.cos_pi, Real.sin_neg, Real.cos_neg]
      nlinarith [Real.sin_sq_add_cos_sq slat]
    unfold dayMask
    rw [hcz]
    have hle : (-1 + twilightSin) / (2 * twilightSin) ≤ 0 := by
      apply div_nonpos_of_nonpos_of_nonneg <;> linarith
    rw [max_eq_left hle, min_eq_right (by linarith)]

/-- C6: for inputs in `[0,255]` (and gamma parameter `g ≥ 1`), the
outputs of `screen`, `multiply` and `gamma` all lie in `[0,255]`. -/
theorem blend_ops_bounded (a b : ℚ) (g v : ℝ)
    (ha0 : 0 ≤ a) (ha1 : a ≤ 255) (hb0 : 0 ≤ b) (hb1 : b ≤ 255)
    (hg : 1 ≤ g) (hv0 : 0 ≤ v) (hv1 : v ≤ 255) :
    (0 ≤ screen a b ∧ screen a b ≤ 255) ∧
      (0 ≤ multiply a b ∧ multiply a b ≤ 255) ∧
      (0 ≤ gammaOp g v ∧ gammaOp g v ≤ 255) := by
  have hbx0 : (0:ℚ) ≤ b / 255 := by positivity
  have hax0 : (0:ℚ) ≤ a / 255 := by positivity
  have hax1 : a / 255 ≤ 1 := by
    rw [div_le_one (by norm_num : (0:ℚ) < 255)]
    exact ha1
  have hbx1 : b / 255 ≤ 1 := by
    rw [div_le_one (by norm_num : (0:ℚ) < 255)]
    exact hb1
  refine ⟨⟨?_, ?_⟩, ⟨?_, ?_⟩, ?_, ?_⟩
  · unfold screen
    nlinarith
  · unfold screen
    nlinarith
  · unfold multiply
    positivity
  · unfold multiply
    nlinarith
  · unfold gammaOp
    have : (0:ℝ) ≤ (v / 255) ^ (1 / g) :=
      Real.rpow_nonneg (by positivity) _
    linarith
  · unfold gammaOp
    have hle : (v / 255) ^ (1 / g) ≤ 1 := by
      apply Real.rpow_le_one (by positivity)
      · rw [div_le_one (by norm_num : (0:ℝ) < 255)]
        exact hv1
      · positivity
    linarith

/-- Witness for C6 at concrete inputs `a = 100`, `b = 200`, `g = 2`, `v = 128`. -/
theorem blend_ops_bounded_witness :
    ((0:ℚ) ≤ 100 ∧ (100:ℚ) ≤ 255 ∧ (0:ℚ) ≤ 200 ∧ (200:ℚ) ≤ 255 ∧
        (1:ℝ) ≤ 2 ∧ (0:ℝ) ≤ 128 ∧ (128:ℝ) ≤ 255) ∧
      ((0 ≤ screen 100 200 ∧ screen 100 200 ≤ 255) ∧
        (0 ≤ multiply 100 200 ∧ multiply 100 200 ≤ 255) ∧
        (0 ≤ gammaOp 2 128 ∧ gammaOp 2 128 ≤ 255)) :=
  ⟨by norm_num,
    blend_ops_bounded 100 200 2 128 (by norm_num) (by norm_num) (by norm_num)
      (by norm_num) (by norm_num) (by norm_num) (by norm_num)⟩

/-- C7: applying the hemisphere half-swap twice returns the original
raster bit-for-bit at every in-range pixel. -/
theorem swapHalves_involutive {α : Type} (f : ℕ → ℕ → α) (y x : ℕ)
    (hx : x < SOURCE_WIDTH) : swapHalves (swapHalves f) y x = f y x := by
  have hW : SOURCE_WIDTH = 8192 := rfl
  have hx8 : x < 8192 := hW ▸ hx
  unfold swapHalves
  rw [hW]
  by_cases h : x < 8192 / 2
  · rw [if_pos h, if_neg (by omega), Nat.add_sub_cancel]
  · rw [if_neg h, if_pos (by omega), Nat.sub_add_cancel (by omega)]

/-- Witness for C7 at a concrete raster and pixel. -/
theorem swapHalves_involutive_witness :
    5000 < SOURCE_WIDTH ∧
      swapHalves (swapHalves (fun y x => y * 10000 + x)) 3 5000 =
        (fun y x => y * 10000 + x) 3 5000 :=
  ⟨by decide, swapHalves_involutive (fun y x => y * 10000 + x) 3 5000 (by decide)⟩

/-- C1 counterexample: the remap of raw IR value 125 is exactly 127.5,
which is not approximately 243.8 (it is more than 100 away). -/
theorem ir_remap_125_not_243 :
    ir_remap 125 = 255 / 2 ∧ ¬ |ir_remap 125 - 2438 / 10| ≤ 1 := by
  constructor
  · unfold ir_remap
    norm_num
  · unfold ir_remap
    rw [abs_le]
    norm_num

/-- C1 (amended): the pre-gamma IR remap returns 0 below 72, 255 above
178, and the linear interpolation `255·(v−72)/(178−72)` in between; in
particular 72 ↦ 0, 178 ↦ 255 and 125 ↦ 127.5. -/
theorem ir_remap_spec (v : ℚ) (h0 : 0 ≤ v) (h255 : v ≤ 255) :
    (v < 72 → ir_remap v = 0) ∧
      (v > 178 → ir_remap v = 255) ∧
      (72 ≤ v → v ≤ 178 → ir_remap v = 255 * (v - 72) / (178 - 72)) ∧
      ir_remap 72 = 0 ∧ ir_remap 178 = 255 ∧ ir_remap 125 = 255 / 2 := by
  refine ⟨?_, ?_, ?_, ?_, ?_, ?_⟩
  · intro h
    unfold ir_remap
    rw [if_pos h]
  · intro h
    unfold ir_remap
    rw [if_neg (by linarith), if_pos h]
  · intro h1 h2
    unfold ir_remap
    rw [if_neg (by linarith), if_neg (by linarith)]
    ring
  · unfold ir_remap
    norm_num
  · unfold ir_remap
    norm_num
  · unfold ir_remap
    norm_num

/-- C2 counterexample: scanning the row `[255, 10, 20, 255]` leaves the
debounce counter at 2 — the sentinel at column 3 recurs after only 2
non-sentinel pixels, yet the counter is NOT restarted to 0 as the claim
asserts: the debounce merely pauses. -/
theorem gap_debounce_counterexample :
    ((List.range 4).foldl (gapStep 4) ([255, 10, 20, 255], initGapState)).2.counter = 2 ∧
      ((List.range 4).foldl (gapStep 4) ([255, 10, 20, 255], initGapState)).2.counter ≠ 0 := by
  constructor <;> decide

/-- C2 (amended): once a gap has started (`gap_start_x` set), a sentinel
pixel leaves row and state unchanged (the counter pauses, it does not
restart); a non-sentinel pixel with counter below `GAP_BUFFER = 3`
increments the counter; and a non-sentinel pixel with counter equal to 3
— i.e. after 3 prior non-sentinel pixels, not necessarily consecutive —
accepts the boundary with `gap_end = x` and `gap_end_val` the current
pixel value, fills the gap, and resets the state. -/
theorem gapStep_debounce (W x : ℕ) (row : List ℕ) (st : GapState) (g : ℤ)
    (hg : st.gapStart = some g) :
    (row.getD x 0 = 255 → gapStep W (row, st) x = (row, st)) ∧
      (row.getD x 0 < 255 → st.counter < GAP_BUFFER →
        gapStep W (row, st) x =
          (row, ⟨st.gapStart, st.gapStartVal, st.counter + 1⟩)) ∧
      (row.getD x 0 < 255 → st.counter = GAP_BUFFER →
        g < (x : ℤ) → 0 ≤ g → x < W →
        gapStep W (row, st) x =
          (writeRange row (max 0 g).toNat
            (fillSeg st.gapStartVal (row.getD x 0) ((x : ℤ) - g + 1).toNat
              (min W (x + 1) - (max 0 g).toNat)),
           initGapState)) :=
  ⟨fun hv => gapStep_inGap_sentinel W x row st g hg hv,
   fun hv hc => gapStep_inGap_count W x row st g hg hv hc,
   fun hv hc h1 h2 h3 => gapStep_accept W x row st g hg hv hc h1 h2 h3⟩

/-- Witness for C2's amended theorem: a concrete in-gap state and a
non-sentinel pixel, whose counter advances from 0 to 1. -/
theorem gapStep_debounce_witness :
    (GapState.mk (some (-3)) 255 0).gapStart = some (-3) ∧
      gapStep 2 ([255, 10], GapState.mk (some (-3)) 255 0) 1 =
        ([255, 10], GapState.mk (some (-3)) 255 1) :=
  ⟨rfl, (gapStep_debounce 2 1 [255, 10] ⟨some (-3), 255, 0⟩ (-3) rfl).2.1
    (by decide) (by decide)⟩

/-- C3 counterexample: with every tier (including the full-resolution
tier 0, which `save_image_resolutions` writes) present on disk, the
blend-tier search of `create_day_night_blend` picks tier 1, whose
resolution is strictly smaller than the existing tier 0 — it does not
load the largest published tier. -/
theorem findBlendTier_counterexample :
    findBlendTier (fun _ => true) = some 1 ∧ (fun _ => true) 0 = true ∧
      tierWidth 1 < tierWidth 0 :=
  ⟨rfl, rfl, by decide⟩

/-- C3 (amended): the blend stage loads the largest among the
*downscaled* pyramid tiers (scale indices 1–3, i.e. skipping the
full-resolution 8192×4096 tier) whose day and night files both exist,
then resizes to working dimensions. -/
theorem findBlendTier_first_downscaled (present : ℕ → Bool) (i : ℕ)
    (h : findBlendTier present = some i) :
    1 ≤ i ∧ i ≤ 3 ∧ present i = true ∧
      ∀ j, 1 ≤ j → j < i → present j = false := by
  unfold findBlendTier at h
  split_ifs at h with h1 h2 h3
  · have hi : i = 1 := (Option.some.inj h).symm
    subst hi
    exact ⟨le_refl 1, by omega, h1, fun j hj1 hj2 => by omega⟩
  · have hi : i = 2 := (Option.some.inj h).symm
    subst hi
    simp only [Bool.not_eq_true] at h1
    refine ⟨by omega, by omega, h2, fun j hj1 hj2 => ?_⟩
    have : j = 1 := by omega
    subst this
    exact h1
  · have hi : i = 3 := (Option.some.inj h).symm
    subst hi
    simp only [Bool.not_eq_true] at h1 h2
    refine ⟨by omega, by omega, h3, fun j hj1 hj2 => ?_⟩
    interval_cases j
    · exact h1
    · exact h2

/-- Witness for C3's amended theorem: only tier 2 present. -/
theorem findBlendTier_first_downscaled_witness :
    findBlendTier (fun j => j == 2) = some 2 ∧
      (1 ≤ 2 ∧ 2 ≤ 3 ∧ (fun j => j == 2) 2 = true ∧
        ∀ j, 1 ≤ j → j < 2 → (fun j => j == 2) j = false) :=
  ⟨rfl, findBlendTier_first_downscaled (fun j => j == 2) 2 rfl⟩

/-- C4 counterexample: the very first file emitted by
`save_image_resolutions` is a direct write to its final path — it is not
a temp-write-then-move, so the pyramid writer has no atomic-replace
protection. -/
theorem save_ops_counterexample :
    SaveOp.directWrite (outPath (tierWidth 0) (tierHeight 0) "clouds" "jpg") ∈
        save_image_resolutions_ops "clouds" ["jpg"] ∧
      ∀ p, SaveOp.directWrite (outPath (tierWidth 0) (tierHeight 0) "clouds" "jpg") ≠
        SaveOp.tempWriteMove p := by
  constructor
  · unfold save_image_resolutions_ops
    rw [List.mem_flatMap]
    refine ⟨"jpg", List.mem_cons_self _ _, ?_⟩
    rw [List.mem_map]
    exact ⟨0, by decide, rfl⟩
  · intro p h
    exact SaveOp.noConfusion h

/-- C4 (amended): every file written by `save_image_resolutions` (the
resolution-pyramid writer) is a direct write to its final path, with no
temporary location or swap; the temp-file-then-move (atomic replace)
pattern is used only by `CloudScheduler.generate_clouds` for its two
downloaded CDN images. -/
theorem save_ops_classification (filename : String) (formats : List String) :
    (∀ op ∈ save_image_resolutions_ops filename formats,
        ∃ p, op = SaveOp.directWrite p) ∧
      (∀ op ∈ generate_clouds_ops, ∃ p, op = SaveOp.tempWriteMove p) := by
  constructor
  · intro op hop
    unfold save_image_resolutions_ops at hop
    rw [List.mem_flatMap] at hop
    obtain ⟨ext, _, hop⟩ := hop
    rw [List.mem_map] at hop
    obtain ⟨i, _, rfl⟩ := hop
    exact ⟨_, rfl⟩
  · intro op hop
    unfold generate_clouds_ops at hop
    rcases List.mem_cons.mp hop with rfl | hop2
    · exact ⟨_, rfl⟩
    · rcases List.mem_cons.mp hop2 with rfl | hop3
      · exact ⟨_, rfl⟩
      · exact absurd hop3 (List.not_mem_nil _)

/-- Witness for C4's amended theorem at the concrete pyramid write of
`clouds.jpg` and the concrete scheduler write of `earth-clouds.jpg`. -/
theorem save_ops_classification_witness :
    (SaveOp.directWrite (outPath (tierWidth 0) (tierHeight 0) "clouds" "jpg") ∈
        save_image_resolutions_ops "clouds" ["jpg"] ∧
      SaveOp.tempWriteMove "earth-clouds.jpg" ∈ generate_clouds_ops) ∧
      ((∃ p, SaveOp.directWrite (outPath (tierWidth 0) (tierHeight 0) "clouds" "jpg") =
          SaveOp.directWrite p) ∧
        ∃ p, SaveOp.tempWriteMove "earth-clouds.jpg" = SaveOp.tempWriteMove p) := by
  have hmem1 : SaveOp.directWrite (outPath (tierWidth 0) (tierHeight 0) "clouds" "jpg") ∈
      save_image_resolutions_ops "clouds" ["jpg"] := by
    unfold save_image_resolutions_ops
    rw [List.mem_flatMap]
    refine ⟨"jpg", List.mem_cons_self _ _, ?_⟩
    rw [List.mem_map]
    exact ⟨0, by decide, rfl⟩
  have hmem2 : SaveOp.tempWriteMove "earth-clouds.jpg" ∈ generate_clouds_ops :=
    List.mem_cons_self _ _
  exact ⟨⟨hmem1, hmem2⟩,
    (save_ops_classification "clouds" ["jpg"]).1 _ hmem1,
    (save_ops_classification "clouds" ["jpg"]).2 _ hmem2⟩

/-- C8: the interpolation written into a gap of width `n ≥ 2` bounded by
values `a` (left) and `b` (right), both valid 8-bit values: each written
entry equals `fillVal`, every value is at most 255 (and at least 0,
being a natural), the sequence is non-decreasing when `a ≤ b`,
non-increasing when `b ≤ a`, and constant when `a = b`. -/
theorem fillSeg_monotone_bounded (a b n : ℕ) (ha : a ≤ 255) (hb : b ≤ 255)
    (hn : 2 ≤ n) :
    (∀ len j, j < len → (fillSeg a b n len).getD j 0 = fillVal a b n j) ∧
      (∀ j, fillVal a b n j ≤ 255) ∧
      (a ≤ b → ∀ i j, i ≤ j → fillVal a b n i ≤ fillVal a b n j) ∧
      (b ≤ a → ∀ i j, i ≤ j → fillVal a b n j ≤ fillVal a b n i) ∧
      (a = b → ∀ j, fillVal a b n j = a) := by
  refine ⟨fun len j hj => fillSeg_getD a b n len j hj,
    fun j => fillVal_le_255 a b n j,
    fun hab i j hij => fillVal_mono a b n hab hij,
    fun hab i j hij => fillVal_anti a b n hab hij,
    fun hab j => ?_⟩
  subst hab
  exact fillVal_const a n j ha

/-- Witness for C8 at the concrete gap `a = 10`, `b = 40`, `n = 9`. -/
theorem fillSeg_monotone_bounded_witness :
    (10 ≤ 255 ∧ 40 ≤ 255 ∧ 2 ≤ 9) ∧
      ((∀ len j, j < len → (fillSeg 10 40 9 len).getD j 0 = fillVal 10 40 9 j) ∧
        (∀ j, fillVal 10 40 9 j ≤ 255) ∧
        (10 ≤ 40 → ∀ i j, i ≤ j → fillVal 10 40 9 i ≤ fillVal 10 40 9 j) ∧
        (40 ≤ 10 → ∀ i j, i ≤ j → fillVal 10 40 9 j ≤ fillVal 10 40 9 i) ∧
        (10 = 40 → ∀ j, fillVal 10 40 9 j = 10)) :=
  ⟨by decide,
    fillSeg_monotone_bounded 10 40 9 (by decide) (by decide) (by decide)⟩

/-- C9: the gap-fill pass only touches rows `y` with
`H/8 ≤ y < H − H/8`; every row outside the band `[H/8, H−H/8]` is
unchanged. -/
theorem gapFillPass_preserves_polar_rows (H W : ℕ) (img : List (List ℕ))
    (y : ℕ) (hy : y < H / 8 ∨ H - H / 8 < y) :
    (gapFillPass H W img).getD y [] = img.getD y [] := by
  unfold gapFillPass
  by_cases hlen : y < img.length
  · have hlen2 : y < (img.mapIdx fun y row =>
        if H / 8 ≤ y ∧ y < H - H / 8 then processRow W row else row).length := by
      rw [List.length_mapIdx]
      exact hlen
    rw [List.getD_eq_getElem _ _ hlen2, List.getD_eq_getElem _ _ hlen,
      List.getElem_mapIdx]
    exact if_neg (by omega)
  · rw [List.getD_eq_default _ _ (by rw [List.length_mapIdx]; omega),
      List.getD_eq_default _ _ (by omega)]

/-- Witness for C9 at a concrete raster and polar row. -/
theorem gapFillPass_preserves_polar_rows_witness :
    (0 < 16 / 8 ∨ 16 - 16 / 8 < 0) ∧
      (gapFillPass 16 4 [[255, 255, 0, 0]]).getD 0 [] =
        ([[255, 255, 0, 0]] : List (List ℕ)).getD 0 [] :=
  ⟨Or.inl (by decide),
    gapFillPass_preserves_polar_rows 16 4 [[255, 255, 0, 0]] 0
      (Or.inl (by decide))⟩

/-- C10: sentinel detection is purely by pixel value.  Any scanned row
of the form `pre ++ [255]^k ++ post` — a run of `k ≥ 1` fully saturated
pixels bounded by darker (`< 255`) pixels, with at least 3 pixels before
the run and 4 after it — has the run (together with the 3-pixel margin
before it and the 4 debounce pixels after it) overwritten by the linear
interpolation between the darker value sampled 3 columns before the run
and the darker value 4 columns past it, regardless of whether the run
came from the stereo-pair seam; every written value is non-sentinel. -/
theorem saturated_run_filled (pre post : List ℕ) (k : ℕ)
    (hpre : 3 ≤ pre.length) (hk : 1 ≤ k) (hpost : 4 ≤ post.length)
    (hpreDark : ∀ v ∈ pre, v < 255) (hpostDark : ∀ v ∈ post, v < 255) :
    processRow (pre ++ (List.replicate k 255 ++ post)).length
        (pre ++ (List.replicate k 255 ++ post)) =
      writeRange (pre ++ (List.replicate k 255 ++ post)) (pre.length - 3)
        (fillSeg (pre.getD (pre.length - 3) 0) (post.getD 3 0) (k + 7) (k + 7)) ∧
      (∀ j, j < k + 7 →
        fillVal (pre.getD (pre.length - 3) 0) (post.getD 3 0) (k + 7) j < 255) := by
  set row := pre ++ (List.replicate k 255 ++ post) with hrowdef
  have hrowlen : row.length = pre.length + (k + post.length) := by
    rw [hrowdef, List.length_append, List.length_append, List.length_replicate]
  have hGB : GAP_BUFFER = 3 := rfl
  -- pixel values of the three regions of the row
  have hgetPre : ∀ x, x < pre.length → row.getD x 0 = pre.getD x 0 := by
    intro x hx
    rw [hrowdef]
    exact List.getD_append _ _ _ _ hx
  have hpre' : ∀ x, x < pre.length → row.getD x 0 < 255 := by
    intro x hx
    rw [hgetPre x hx, List.getD_eq_getElem _ _ hx]
    exact hpreDark _ (List.getElem_mem hx)
  have hgetRep : ∀ x, pre.length ≤ x → x < pre.length + k → row.getD x 0 = 255 := by
    intro x h1 h2
    rw [hrowdef, List.getD_append_right _ _ _ _ h1,
      List.getD_append _ _ _ _ (by rw [List.length_replicate]; omega),
      List.getD_eq_getElem _ _ (by rw [List.length_replicate]; omega),
      List.getElem_replicate]
  have hgetPost : ∀ x, pre.length + k ≤ x →
      row.getD x 0 = post.getD (x - pre.length - k) 0 := by
    intro x h1
    rw [hrowdef, List.getD_append_right _ _ _ _ (by omega),
      List.getD_append_right _ _ _ _ (by rw [List.length_replicate]; omega),
      List.length_replicate]
  have hpost' : ∀ x, pre.length + k ≤ x → x < row.length → row.getD x 0 < 255 := by
    intro x h1 h2
    rw [hgetPost x h1]
    have hidx : x - pre.length - k < post.length := by
      rw [hrowlen] at h2
      omega
    rw [List.getD_eq_getElem _ _ hidx]
    exact hpostDark _ (List.getElem_mem hidx)
  have ha : row.getD (pre.length - 3) 0 = pre.getD (pre.length - 3) 0 :=
    hgetPre _ (by omega)
  have hb : row.getD (pre.length + k + 3) 0 = post.getD 3 0 := by
    rw [hgetPost _ (by omega)]
    congr 1
    omega
  -- decompose the column range into the six phases of the scan
  have hsplit : List.range row.length =
      List.range' 0 pre.length ++
        (List.range' pre.length 1 ++
          (List.range' (pre.length + 1) (k - 1) ++
            (List.range' (pre.length + k) 3 ++
              (List.range' (pre.length + k + 3) 1 ++
                List.range' (pre.length + k + 4) (post.length - 4))))) := by
    rw [List.range_eq_range', hrowlen,
      show pre.length + (k + post.length) =
        pre.length + (1 + ((k - 1) + (3 + (1 + (post.length - 4))))) by omega,
      range'_split 0 pre.length _, Nat.zero_add,
      range'_split pre.length 1 _,
      range'_split (pre.length + 1) (k - 1) _,
      show pre.length + 1 + (k - 1) = pre.length + k by omega,
      range'_split (pre.length + k) 3 _,
      range'_split (pre.length + k + 3) 1 _,
      show pre.length + k + 3 + 1 = pre.length + k + 4 by omega]
  -- phase A: the dark prefix is skipped with no state change
  have hA : (List.range' 0 pre.length).foldl (gapStep row.length)
      (row, initGapState) = (row, initGapState) :=
    scan_skip_dark _ _ _ _ fun x h1 h2 => hpre' x (by omega)
  -- phase B: the first sentinel opens the gap
  have hB : (List.range' pre.length 1).foldl (gapStep row.length)
      (row, initGapState) =
      (row, ⟨some ((pre.length : ℤ) - GAP_BUFFER),
        row.getD (pre.length - GAP_BUFFER) 0, 0⟩) := by
    have e : List.range' pre.length 1 = [pre.length] := rfl
    rw [e, List.foldl_cons, List.foldl_nil,
      gapStep_start _ _ _ _ rfl (hgetRep _ le_rfl (by omega)),
      if_pos (show GAP_BUFFER ≤ pre.length from by rw [hGB]; omega)]
    rfl
  -- phase C: the rest of the sentinel run leaves row and state unchanged
  have hC : (List.range' (pre.length + 1) (k - 1)).foldl (gapStep row.length)
      (row, ⟨some ((pre.length : ℤ) - GAP_BUFFER),
        row.getD (pre.length - GAP_BUFFER) 0, 0⟩) =
      (row, ⟨some ((pre.length : ℤ) - GAP_BUFFER),
        row.getD (pre.length - GAP_BUFFER) 0, 0⟩) :=
    scan_skip_sentinel _ _ _ _ _ _ rfl fun x h1 h2 =>
      hgetRep x (by omega) (by omega)
  -- phase D: three dark pixels advance the debounce counter to 3
  have hD : (List.range' (pre.length + k) 3).foldl (gapStep row.length)
      (row, ⟨some ((pre.length : ℤ) - GAP_BUFFER),
        row.getD (pre.length - GAP_BUFFER) 0, 0⟩) =
      (row, ⟨some ((pre.length : ℤ) - GAP_BUFFER),
        row.getD (pre.length - GAP_BUFFER) 0, 3⟩) := by
    have e : List.range' (pre.length + k) 3 =
        [pre.length + k, pre.length + k + 1, pre.length + k + 2] := rfl
    rw [e, List.foldl_cons,
      gapStep_inGap_count _ _ _ _ _ rfl
        (hpost' _ (by omega) (by rw [hrowlen]; omega))
        (by show (0 : ℕ) < GAP_BUFFER; decide),
      List.foldl_cons,
      gapStep_inGap_count _ _ _ _ _ rfl
        (hpost' _ (by omega) (by rw [hrowlen]; omega))
        (by show (0 : ℕ) + 1 < GAP_BUFFER; decide),
      List.foldl_cons,
      gapStep_inGap_count _ _ _ _ _ rfl
        (hpost' _ (by omega) (by rw [hrowlen]; omega))
        (by show (0 : ℕ) + 1 + 1 < GAP_BUFFER; decide),
      List.foldl_nil]
  -- phase E: the fourth dark pixel accepts the boundary and fills the gap
  have hE : gapStep row.length
      (row, ⟨some ((pre.length : ℤ) - GAP_BUFFER),
        row.getD (pre.length - GAP_BUFFER) 0, 3⟩)
      (pre.length + k + 3) =
      (writeRange row (pre.length - 3)
        (fillSeg (pre.getD (pre.length - 3) 0) (post.getD 3 0) (k + 7) (k + 7)),
       initGapState) := by
    rw [gapStep_accept _ _ _ _ _ rfl
      (hpost' _ (by omega) (by rw [hrowlen]; omega)) rfl
      (by rw [hGB]; omega) (by rw [hGB]; omega) (by rw [hrowlen]; omega)]
    dsimp only
    rw [hGB, ha, hb]
    congr 1
    congr 1
    · omega
    congr 1
    · omega
    · rw [hrowlen]
      omega
  -- phase F: the dark suffix is skipped with no further change
  have hF : (List.range' (pre.length + k + 4) (post.length - 4)).foldl
      (gapStep row.length)
      (writeRange row (pre.length - 3)
        (fillSeg (pre.getD (pre.length - 3) 0) (post.getD 3 0) (k + 7) (k + 7)),
       initGapState) =
      (writeRange row (pre.length - 3)
        (fillSeg (pre.getD (pre.length - 3) 0) (post.getD 3 0) (k + 7) (k + 7)),
       initGapState) :=
    scan_skip_dark _ _ _ _ fun x h1 h2 => by
      have hlen : (fillSeg (pre.getD (pre.length - 3) 0) (post.getD 3 0)
          (k + 7) (k + 7)).length = k + 7 := fillSeg_length _ _ _ _
      rw [writeRange_getD_right _ _ _ _ _ (by rw [hrowlen]; omega)
        (by rw [hlen]; omega)]
      exact hpost' x (by omega) (by rw [hrowlen]; omega)
  constructor
  · unfold processRow
    rw [hsplit, List.foldl_append, List.foldl_append, List.foldl_append,
      List.foldl_append, List.foldl_append, hA, hB, hC, hD,
      show List.range' (pre.length + k + 3) 1 = [pre.length + k + 3] from rfl,
      List.foldl_cons, List.foldl_nil, hE, hF]
  · intro j hj
    have h1 : fillVal (pre.getD (pre.length - 3) 0) (post.getD 3 0) (k + 7) j ≤
        max (pre.getD (pre.length - 3) 0) (post.getD 3 0) :=
      fillVal_le_max _ _ _ _ hj
    have ha' : pre.getD (pre.length - 3) 0 < 255 := by
      rw [List.getD_eq_getElem _ _ (by omega)]
      exact hpreDark _ (List.getElem_mem _)
    have hb' : post.getD 3 0 < 255 := by
      rw [List.getD_eq_getElem _ _ (by omega)]
      exact hpostDark _ (List.getElem_mem _)
    omega

/-- Witness for C10 at the concrete row `[1,2,3] ++ [255] ++ [10,20,30,40]`. -/
theorem saturated_run_filled_witness :
    (3 ≤ ([1, 2, 3] : List ℕ).length ∧ 1 ≤ 1 ∧
        4 ≤ ([10, 20, 30, 40] : List ℕ).length ∧
        (∀ v ∈ ([1, 2, 3] : List ℕ), v < 255) ∧
        (∀ v ∈ ([10, 20, 30, 40] : List ℕ), v < 255)) ∧
      (processRow ([1, 2, 3] ++ (List.replicate 1 255 ++ [10, 20, 30, 40])).length
          ([1, 2, 3] ++ (List.replicate 1 255 ++ [10, 20, 30, 40])) =
        writeRange ([1, 2, 3] ++ (List.replicate 1 255 ++ [10, 20, 30, 40]))
          (([1, 2, 3] : List ℕ).length - 3)
          (fillSeg (([1, 2, 3] : List ℕ).getD (([1, 2, 3] : List ℕ).length - 3) 0)
            (([10, 20, 30, 40] : List ℕ).getD 3 0) (1 + 7) (1 + 7)) ∧
        ∀ j, j < 1 + 7 →
          fillVal (([1, 2, 3] : List ℕ).getD (([1, 2, 3] : List ℕ).length - 3) 0)
            (([10, 20, 30, 40] : List ℕ).getD 3 0) (1 + 7) j < 255) :=
  ⟨⟨by decide, by decide, by decide, by decide, by decide⟩,
    saturated_run_filled [1, 2, 3] [10, 20, 30, 40] 1
      (by decide) (by decide) (by decide) (by decide) (by decide)⟩

/-- Witness for C1's amended theorem at the concrete input `v = 125`. -/
theorem ir_remap_spec_witness :
    ((0:ℚ) ≤ 125 ∧ (125:ℚ) ≤ 255) ∧
      ((125:ℚ) < 72 → ir_remap 125 = 0) ∧
      ((125:ℚ) > 178 → ir_remap 125 = 255) ∧
      ((72:ℚ) ≤ 125 → (125:ℚ) ≤ 178 → ir_remap 125 = 255 * (125 - 72) / (178 - 72)) ∧
      ir_remap 72 = 0 ∧ ir_remap 178 = 255 ∧ ir_remap 125 = 255 / 2 :=
  ⟨by norm_num, ir_remap_spec 125 (by norm_num) (by norm_num)⟩

end EarthViz
